import Mathlib

/-!
Verification development for the dockerApp command-line utilities.

The TypeScript sources are shallowly embedded as pure Lean functions:

* `cloudFlareApp.ts` — the DNS wrapper: envelope handling (`cfRequest`),
  table padding (`pad`), record creation (`addRecord`), fetch-merge-replace
  update (`updateRecord`).
* `gitHubCli.ts` — the repository wrapper: the generic external-command
  wrapper (`run`) and the pure list helpers (`filterByVisibility`,
  `filterByMonthsAgo`, `filterOlderThanMonths`, `sortByUpdated`).
* `gowaApp.ts` and the n8n scaffolder — directory/file scaffolding over an
  explicit filesystem state (`gowaMain`, `n8nMain`).

JavaScript strings are modelled as Lean `String` viewed through the list of
characters `String.data`; the fields the programs compare (timestamps, exit
codes) are modelled as `Int`/`Nat`; a JS value that may be `undefined` is an
`Option`. Network and process effects are modelled by passing the observed
response (envelope, captured streams and exit code) as an explicit argument
and returning the requests the code would issue.
-/

namespace DockerApp

/-! ### cloudFlareApp.ts : data model -/

/-- DNS record type enumeration, from `type DNSRecordType` in cloudFlareApp.ts. -/
inductive DNSRecordType where
  | A | AAAA | CNAME | TXT | MX
deriving DecidableEq, Repr

/-- A DNS record as fetched from the API (`interface DNSRecord`).
`proxied` is an optional field (`proxied?: boolean`), hence `Option`. -/
structure DNSRecord where
  id : String
  type : DNSRecordType
  name : String
  content : String
  ttl : Int
  proxied : Option Bool
deriving DecidableEq, Repr

/-- The response envelope (`interface CFResponse<T>`): success flag, result
payload, error list.  The `unknown[]` error list is modelled as strings. -/
structure CFResponse (T : Type) where
  success : Bool
  result : T
  errors : List String
deriving DecidableEq, Repr

/-- Observable outcome of one `cfRequest` call: either the process exited
(with the code passed to `process.exit` and the error list printed by
`console.error`), or the result payload was returned to the caller. -/
inductive CFOutcome (T : Type) where
  | exited (code : Nat) (printedErrors : List String)
  | ok (result : T)
deriving DecidableEq, Repr

/-- Envelope handling of `cfRequest`: the HTTP exchange is abstracted into
the parsed envelope `json`; `if (!json.success)` print the errors and
`process.exit(1)`, otherwise `return json.result`. -/
def cfRequest {T : Type} (json : CFResponse T) : CFOutcome T :=
  if json.success then .ok json.result
  else .exited 1 json.errors

/-! ### cloudFlareApp.ts : pad -/

/-- Character-level body of `pad`: `str.length > len ? str.slice(0, len - 1)
+ ellipsis : str.padEnd(len)`.  All call sites in the source use `len ≥ 6`,
so the negative-index behaviour of JS `slice` at `len = 0` never arises and
`len - 1` is the plain truncated subtraction. -/
def padChars (s : List Char) (len : Nat) : List Char :=
  if len < s.length then s.take (len - 1) ++ ['…']
  else s ++ List.replicate (len - s.length) ' '

/-- The table-padding helper `pad` of cloudFlareApp.ts. -/
def pad (str : String) (len : Nat) : String :=
  String.mk (padChars str.data len)

/-! ### cloudFlareApp.ts : addRecord -/

/-- Request body submitted by `addRecord` / `updateRecord`: after the merge
every field is present, in particular `proxied` is a definite boolean. -/
structure DNSPayload where
  type : DNSRecordType
  name : String
  content : String
  ttl : Int
  proxied : Bool
deriving DecidableEq, Repr

/-- Argument of `addRecord`: `type`, `name`, `content` required; `ttl?` and
`proxied?` optional. -/
structure AddInput where
  type : DNSRecordType
  name : String
  content : String
  ttl : Option Int
  proxied : Option Bool
deriving DecidableEq, Repr

/-- The `POST` body of `addRecord`: `{ ttl: 1, proxied: false, ...input }`.
A spread overrides the defaults exactly for the fields present in `input`. -/
def addRecordBody (input : AddInput) : DNSPayload :=
  { type := input.type
    name := input.name
    content := input.content
    ttl := input.ttl.getD 1
    proxied := input.proxied.getD false }

/-- Path of the record collection endpoint `/zones/ZONE_ID/dns_records`. -/
def recordsPath (zone : String) : String :=
  "/zones/" ++ zone ++ "/dns_records"

/-- Path of the single-record endpoint `/zones/ZONE_ID/dns_records/ID`. -/
def recordPath (zone id : String) : String :=
  recordsPath zone ++ "/" ++ id

/-- `addRecord`: issues one `POST` with body `addRecordBody input`; on a
successful envelope prints `Record added: <id>` (modelled as the returned
message), on a failed envelope the process exits inside `cfRequest` and
nothing is printed. -/
def addRecord (zone : String) (input : AddInput) (env : CFResponse DNSRecord) :
    (String × DNSPayload) × Option String :=
  ((recordsPath zone, addRecordBody input),
    match cfRequest env with
    | .exited _ _ => none
    | .ok record => some ("Record added: " ++ record.id))

/-! ### cloudFlareApp.ts : updateRecord -/

/-- A partial patch `Partial<Omit<DNSRecord, "id">>`: every field optional;
`none` means the key is absent from the patch object. -/
structure DNSPatch where
  type : Option DNSRecordType
  name : Option String
  content : Option String
  ttl : Option Int
  proxied : Option Bool
deriving DecidableEq, Repr

/-- The empty patch `{}`. -/
def DNSPatch.empty : DNSPatch :=
  { type := none, name := none, content := none, ttl := none, proxied := none }

/-- The merged `PUT` body of `updateRecord`:
`{ type: current.type, name: current.name, content: current.content,
ttl: current.ttl, proxied: current.proxied ?? false, ...patch }` —
a field present in the patch wins, an absent field keeps the value taken
from `current`, where `proxied` is first defaulted to `false` by `??`. -/
def updatePayload (current : DNSRecord) (patch : DNSPatch) : DNSPayload :=
  { type := patch.type.getD current.type
    name := patch.name.getD current.name
    content := patch.content.getD current.content
    ttl := patch.ttl.getD current.ttl
    proxied := patch.proxied.getD (current.proxied.getD false) }

/-- `updateRecord id patch`: first a `GET` of the single-record path, then —
only when that envelope was successful — a `PUT` of the merged payload to
the same path.  The first component is the fetch path, the second the
submitted replacement (`none` when the fetch made the process exit). -/
def updateRecord (zone id : String) (patch : DNSPatch)
    (fetchEnv : CFResponse DNSRecord) : String × Option (String × DNSPayload) :=
  (recordPath zone id,
    match cfRequest fetchEnv with
    | .exited _ _ => none
    | .ok current => some (recordPath zone id, updatePayload current patch))

/-! ### gitHubCli.ts : the generic run wrapper -/

/-- Captured observation of the spawned process: full standard output, full
standard error, exit code. -/
structure ProcResult where
  out : String
  err : String
  code : Int
deriving DecidableEq, Repr

/-- JS `String.prototype.trim`: drop leading and trailing whitespace,
modelled at character level (`String.trim` itself is byte-indexed and is
not kernel-reducible). -/
def jsTrim (s : String) : String :=
  String.mk (((s.data.dropWhile Char.isWhitespace).reverse.dropWhile
    Char.isWhitespace).reverse)

/-- The `run` wrapper of gitHubCli.ts, given the observed process result:
`if (code !== 0) throw new Error(err || out); return out.trim()`.
JS `err || out` picks `out` exactly when `err` is the empty string.
The command vector and optional stdin text do not influence this logic; they
are kept as arguments for fidelity to the source signature. -/
def run (cmd : List String) (input : Option String) (res : ProcResult) :
    Except String String :=
  if res.code ≠ 0 then
    .error (if res.err = "" then res.out else res.err)
  else
    .ok (jsTrim res.out)

/-! ### gitHubCli.ts : repository list helpers -/

/-- A repository descriptor row as parsed from the JSON projection
`name,visibility,url,updatedAt,createdAt,pushedAt`.  `visibility` and
`updatedAt` are optional because the helpers guard against their absence;
`updatedAt` is the parsed millisecond timestamp `new Date(x).getTime()`. -/
structure Repo where
  name : String
  visibility : Option String
  updatedAt : Option Int
deriving DecidableEq, Repr

/-- JS `String.prototype.toLowerCase` on the ASCII strings compared here,
modelled at character level. -/
def jsToLower (s : String) : String :=
  String.mk (s.data.map Char.toLower)

/-- `filterByVisibility`: keep rows with
`r.visibility?.toLowerCase() === visibility`; a row without the field
compares `undefined === visibility`, which is false. -/
def filterByVisibility (repos : List Repo) (visibility : String) : List Repo :=
  repos.filter (fun r =>
    match r.visibility with
    | some v => jsToLower v == visibility
    | none => false)

/-- The cutoff `now - months * 30 * 24 * 60 * 60 * 1000` shared by the two
date-window filters. -/
def monthsLimit (now : Int) (months : Nat) : Int :=
  now - (months : Int) * 30 * 24 * 60 * 60 * 1000

/-- `filterByMonthsAgo`: keep rows with
`new Date(r.updatedAt).getTime() >= limit`.  When `updatedAt` is absent the
JS time value is `NaN` and the comparison is false. -/
def filterByMonthsAgo (now : Int) (repos : List Repo) (months : Nat) : List Repo :=
  repos.filter (fun r =>
    match r.updatedAt with
    | some t => monthsLimit now months ≤ t
    | none => false)

/-- `filterOlderThanMonths`: keep rows with
`r.updatedAt && new Date(r.updatedAt).getTime() < limit`. -/
def filterOlderThanMonths (now : Int) (repos : List Repo) (months : Nat) : List Repo :=
  repos.filter (fun r =>
    match r.updatedAt with
    | some t => t < monthsLimit now months
    | none => false)

/-! ### gitHubCli.ts : sortByUpdated -/

/-- The order argument `"asc" | "desc"` of `sortByUpdated`. -/
inductive SortOrder where
  | asc | desc
deriving DecidableEq, Repr

/-- The sort key `new Date(r.updatedAt).getTime()`.  When `updatedAt` is
absent the JS key is `NaN`, the comparator is inconsistent and
`Array.prototype.sort` is implementation defined; the model assigns `0` and
the sort theorem is stated for lists whose rows all carry `updatedAt`. -/
def updatedTime (r : Repo) : Int :=
  r.updatedAt.getD 0

/-- The numeric comparator passed to `sort`: descending compares
`b - a`, ascending `a - b` on the update timestamps. -/
def compareRepos (order : SortOrder) (a b : Repo) : Int :=
  match order with
  | .desc => updatedTime b - updatedTime a
  | .asc => updatedTime a - updatedTime b

/-- `sortByUpdated`: `[...repos].sort(cmp)`.  ES2019 `sort` is stable, and
for a consistent comparator its output is the unique stable sorted
permutation, i.e. `mergeSort` with `le a b := cmp a b ≤ 0` (the left
element is kept first exactly when the comparator is non-positive). -/
def sortByUpdated (repos : List Repo) (order : SortOrder) : List Repo :=
  repos.mergeSort (fun a b => compareRepos order a b ≤ 0)

/-! ### Scaffolders (gowaApp.ts and the n8n variant) -/

/-- Filesystem state visible to the scaffolders: the set of directories and
the written files (path, content), newest first. -/
structure FS where
  dirs : List String
  files : List (String × String)
deriving DecidableEq, Repr

/-- `existsSync` on the scaffold target directory. -/
def existsSync (fs : FS) (p : String) : Bool :=
  fs.dirs.contains p

/-- `path.join` for the fixed two-component joins used here. -/
def pathJoin (a b : String) : String :=
  a ++ "/" ++ b

/-- `BASE_DIR = path.join(HOME, "dockerApp", appKind, APP_NAME)`. -/
def baseDir (home appKind name : String) : String :=
  pathJoin (pathJoin (pathJoin home "dockerApp") appKind) name

/-- JS truthiness of the `getArg` result: `null` and the empty string are
falsy. -/
def truthy : Option String → Bool
  | none => false
  | some s => s != ""

/-- Outcome of a scaffolder run: `process.exit code` after printing `msg`,
or normal completion. -/
inductive ScaffoldOutcome where
  | exited (code : Nat) (msg : String)
  | created
deriving DecidableEq, Repr

/-- The `composeContent` template of gowaApp.ts with `APP_NAME`,
`HOST_PORT` substituted (`VOLUME_NAME = APP_NAME`, `CONTAINER_PORT = 3000`). -/
def gowaComposeContent (name port : String) : String :=
  "name: " ++ name ++
  "\n\nservices:\n  whatsapp:\n    image: aldinokemal2104/go-whatsapp-web-multidevice\n    container_name: " ++ name ++
  "\n    restart: always\n\n    ports:\n      - \"" ++ port ++
  ":3000\"\n\n    volumes:\n      - " ++ name ++
  ":/app/storages\n\n    command:\n      - rest\n      - --basic-auth=admin:admin\n      - --port=3000\n      - --debug=true\n      - --os=Chrome\n      - --account-validation=false\n\nvolumes:\n  " ++ name ++
  ":\n"

/-- The `envContent` template of the n8n scaffolder with `PORT` substituted. -/
def n8nEnvContent (port : String) : String :=
  "# ===== CORE =====\nN8N_HOST=0.0.0.0\nN8N_PORT=" ++ port ++
  "\nN8N_PROTOCOL=http\nN8N_LISTEN_ADDRESS=0.0.0.0\n\n# ===== AUTH =====\nN8N_BASIC_AUTH_ACTIVE=true\n# ===== PERMISSION =====\nN8N_ENFORCE_SETTINGS_FILE_PERMISSIONS=true\n\n# ===== TIMEZONE =====\nTZ=Asia/Jakarta\n"

/-- The `composeContent` template of the n8n scaffolder with `APP_NAME`
substituted (`NETWORK_NAME = APP_NAME + \"_net\"`, `VOLUME_NAME = APP_NAME`;
the port reference `$\x7bN8N_PORT\x7d` is escaped in the source and stays
literal text). -/
def n8nComposeContent (name : String) : String :=
  "name: " ++ name ++
  "\n\nservices:\n  n8n:\n    image: n8nio/n8n:latest\n    container_name: " ++ name ++
  "\n    restart: unless-stopped\n\n    ports:\n      - \"$\x7bN8N_PORT\x7d:5678\"\n\n    env_file:\n      - .env\n\n    volumes:\n      - " ++ name ++
  ":/home/node/.n8n\n\n    networks:\n      - " ++ name ++
  "_net\n\nnetworks:\n  " ++ name ++
  "_net:\n    name: " ++ name ++
  "_net\n    driver: bridge\n\nvolumes:\n  " ++ name ++
  ":\n"

/-- The gowaApp.ts top-level flow over an explicit filesystem: argument
truthiness check (usage + `exit 1`), `existsSync` guard (message +
`exit 1`, no writes), otherwise `mkdir` of the base directory and one
`writeFile` of `compose.yaml`. -/
def gowaMain (home : String) (nameArg portArg : Option String) (fs : FS) :
    FS × ScaffoldOutcome :=
  if !(truthy nameArg && truthy portArg) then
    (fs, .exited 1 "Usage:\nbun src/gowaApp.ts --name 1gowaApp --port 3002")
  else
    let name := nameArg.getD ""
    let port := portArg.getD ""
    let base := baseDir home "gowaApp" name
    if existsSync fs base then
      (fs, .exited 1 ("❌ Folder already exists: " ++ base))
    else
      ({ dirs := base :: fs.dirs
         files := (pathJoin base "compose.yaml", gowaComposeContent name port) :: fs.files },
       .created)

/-- The n8n scaffolder top-level flow: same guards, then `mkdir` and two
`writeFile` calls, `.env` first and `compose.yaml` second. -/
def n8nMain (home : String) (nameArg portArg : Option String) (fs : FS) :
    FS × ScaffoldOutcome :=
  if !(truthy nameArg && truthy portArg) then
    (fs, .exited 1 "Usage:\nbun src/n8nApp.ts --name 2n8nApp --port 5679")
  else
    let name := nameArg.getD ""
    let port := portArg.getD ""
    let base := baseDir home "n8nApp" name
    if existsSync fs base then
      (fs, .exited 1 ("❌ Folder already exists: " ++ base))
    else
      ({ dirs := base :: fs.dirs
         files := (pathJoin base "compose.yaml", n8nComposeContent name) ::
                  (pathJoin base ".env", n8nEnvContent port) :: fs.files },
       .created)

/-! ### Helper lemmas -/

theorem padChars_length {s : List Char} {len : Nat} (h : 1 ≤ len) :
    (padChars s len).length = len := by
  unfold padChars
  split
  · simp only [List.length_append, List.length_take, List.length_cons,
      List.length_nil]
    omega
  · simp only [List.length_append, List.length_replicate]
    omega

theorem padChars_idem {s : List Char} {len : Nat} (h : 1 ≤ len) :
    padChars (padChars s len) len = padChars s len := by
  have hl := padChars_length (s := s) h
  have hnot : ¬ len < (padChars s len).length := by omega
  conv_lhs => rw [padChars.eq_def]
  rw [if_neg hnot, hl]
  simp

/-! ### Claim theorems -/

/-- Claim C10: for every string and every column width `len ≥ 1`, `pad`
returns a string of length exactly `len`; a string longer than `len` is
truncated to `len - 1` characters plus an ellipsis character, a shorter one
is padded on the right with spaces to length `len`; and `pad` is idempotent
at a fixed width. -/
theorem pad_spec (s : String) (len : Nat) (h : 1 ≤ len) :
    (pad s len).length = len ∧
    (len < s.length → (pad s len).data = s.data.take (len - 1) ++ ['…']) ∧
    (s.length ≤ len →
      (pad s len).data = s.data ++ List.replicate (len - s.length) ' ') ∧
    pad (pad s len) len = pad s len := by
  have hdata : (pad s len).data = padChars s.data len := rfl
  have hslen : s.length = s.data.length := rfl
  refine ⟨?_, ?_, ?_, ?_⟩
  · show (padChars s.data len).length = len
    exact padChars_length h
  · intro hlt
    rw [hdata, padChars, if_pos (by omega)]
  · intro hle
    rw [hdata, padChars, if_neg (by omega), ← hslen]
  · show String.mk (padChars (padChars s.data len) len) = String.mk (padChars s.data len)
    exact congrArg String.mk (padChars_idem h)

/-- Claim C10 witness: `pad` evaluated at concrete inputs through `pad_spec`. -/
theorem pad_spec_witness :
    (pad "abcdefgh" 5).length = 5 ∧ pad (pad "abcdefgh" 5) 5 = pad "abcdefgh" 5 :=
  ⟨(pad_spec "abcdefgh" 5 (by decide)).1, (pad_spec "abcdefgh" 5 (by decide)).2.2.2⟩

/-- Claim C2: a parsed envelope with a false success flag makes the request
wrapper print the error list and exit with the non-zero status `1`, never
returning a result to the caller; a true success flag makes it return the
result payload. -/
theorem cfRequest_envelope_spec {T : Type} (env : CFResponse T) :
    (env.success = false →
      cfRequest env = .exited 1 env.errors ∧ ∀ r : T, cfRequest env ≠ .ok r) ∧
    (env.success = true → cfRequest env = .ok env.result) := by
  refine ⟨fun h => ⟨by simp [cfRequest, h], fun r => by simp [cfRequest, h]⟩,
    fun h => by simp [cfRequest, h]⟩

/-- Claim C2 witness: `cfRequest` evaluated on a failing and on a successful
concrete envelope through `cfRequest_envelope_spec`. -/
theorem cfRequest_envelope_spec_witness :
    cfRequest { success := false, result := (0 : Nat), errors := ["bad token"] } =
      CFOutcome.exited 1 ["bad token"] ∧
    cfRequest { success := true, result := (7 : Nat), errors := [] } =
      CFOutcome.ok 7 :=
  ⟨((cfRequest_envelope_spec _).1 rfl).1, (cfRequest_envelope_spec _).2 rfl⟩

/-- Claim C6: the generic run wrapper returns the trimmed captured standard
output on a zero exit status, and fails with the captured standard error —
or the captured standard output when standard error is empty — on a
non-zero exit status. -/
theorem run_exit_code_spec (cmd : List String) (input : Option String)
    (res : ProcResult) :
    (res.code = 0 → run cmd input res = .ok (jsTrim res.out)) ∧
    (res.code ≠ 0 →
      (res.err ≠ "" → run cmd input res = .error res.err) ∧
      (res.err = "" → run cmd input res = .error res.out)) := by
  refine ⟨fun h => by simp [run, h], fun h => ⟨fun he => ?_, fun he => ?_⟩⟩
  · simp [run, h, he]
  · simp [run, h, he]

/-- Claim C6 witness: `run` evaluated on concrete process results through
`run_exit_code_spec`. -/
theorem run_exit_code_spec_witness :
    run ["gh", "repo", "list"] none { out := "  hello\n", err := "", code := 0 } =
      Except.ok (jsTrim "  hello\n") ∧
    jsTrim "  hello\n" = "hello" ∧
    run ["gh"] none { out := "o", err := "boom", code := 1 } = Except.error "boom" ∧
    run ["gh"] none { out := "only out", err := "", code := 2 } =
      Except.error "only out" :=
  ⟨(run_exit_code_spec ["gh", "repo", "list"] none ⟨"  hello\n", "", 0⟩).1 rfl,
   by decide,
   ((run_exit_code_spec ["gh"] none ⟨"o", "boom", 1⟩).2 (by decide)).1 (by decide),
   ((run_exit_code_spec ["gh"] none ⟨"only out", "", 2⟩).2 (by decide)).2 rfl⟩

/-- Claim C7: the creation call of `addRecord` posts a body equal to
`ttl = 1, proxied = false` merged with the given fields — supplied fields
override, so `ttl` defaults to `1` and `proxied` to `false` exactly when
absent — and on a successful envelope the returned record id is printed. -/
theorem addRecord_defaults_spec (zone : String) (input : AddInput)
    (env : CFResponse DNSRecord) :
    (addRecord zone input env).1 = (recordsPath zone, addRecordBody input) ∧
    (addRecordBody input).type = input.type ∧
    (addRecordBody input).name = input.name ∧
    (addRecordBody input).content = input.content ∧
    (input.ttl = none → (addRecordBody input).ttl = 1) ∧
    (∀ v, input.ttl = some v → (addRecordBody input).ttl = v) ∧
    (input.proxied = none → (addRecordBody input).proxied = false) ∧
    (∀ v, input.proxied = some v → (addRecordBody input).proxied = v) ∧
    (env.success = true →
      (addRecord zone input env).2 = some ("Record added: " ++ env.result.id)) := by
  refine ⟨rfl, rfl, rfl, rfl, fun h => ?_, fun v h => ?_, fun h => ?_,
    fun v h => ?_, fun h => ?_⟩
  · simp [addRecordBody, h]
  · simp [addRecordBody, h]
  · simp [addRecordBody, h]
  · simp [addRecordBody, h]
  · simp [addRecord, cfRequest, h]

/-- Claim C7 witness: `addRecord` evaluated, through `addRecord_defaults_spec`,
on the spec example input (no `ttl`, `proxied` supplied) and a successful
envelope. -/
theorem addRecord_defaults_spec_witness :
    (addRecordBody
      { type := .A, name := "test.domain.com", content := "1.1.1.1",
        ttl := none, proxied := some true }).ttl = 1 ∧
    (addRecordBody
      { type := .A, name := "test.domain.com", content := "1.1.1.1",
        ttl := none, proxied := some true }).proxied = true ∧
    (addRecord "zone1"
      { type := .A, name := "test.domain.com", content := "1.1.1.1",
        ttl := none, proxied := some true }
      { success := true,
        result := { id := "newid", type := .A, name := "test.domain.com",
                    content := "1.1.1.1", ttl := 1, proxied := some true },
        errors := [] }).2 = some ("Record added: " ++ "newid") :=
  ⟨(addRecord_defaults_spec "zone1" _ ⟨true, ⟨"newid", .A, "test.domain.com",
      "1.1.1.1", 1, some true⟩, []⟩).2.2.2.2.1 rfl,
   (addRecord_defaults_spec "zone1" _ ⟨true, ⟨"newid", .A, "test.domain.com",
      "1.1.1.1", 1, some true⟩, []⟩).2.2.2.2.2.2.2.1 true rfl,
   (addRecord_defaults_spec "zone1" _ _).2.2.2.2.2.2.2.2 rfl⟩

/-- Claim C1 counterexample: on the spec example patch `content = 8.8.8.8`
applied to a fetched record whose optional `proxied` field is absent, the
submitted replacement carries `proxied = false`, which does not equal the
fetched record value (absent): the claim that every field absent from the
patch equals the fetched value fails for `proxied`. -/
theorem updateRecord_absent_proxied_counterexample :
    let current : DNSRecord :=
      { id := "abc123", type := .A, name := "test.domain.com",
        content := "1.1.1.1", ttl := 1, proxied := none }
    let patch : DNSPatch := { DNSPatch.empty with content := some "8.8.8.8" }
    let env : CFResponse DNSRecord :=
      { success := true, result := current, errors := [] }
    (updateRecord "zone1" "abc123" patch env).2 =
      some (recordPath "zone1" "abc123", updatePayload current patch) ∧
    patch.proxied = none ∧
    some ((updatePayload current patch).proxied) ≠ current.proxied := by
  decide

/-- Claim C1 (amended): `updateRecord` first fetches the record by id and,
when the fetch envelope is successful, submits to the same path a
replacement whose fields equal the patch values where present and the
fetched record values where absent — except that `proxied` falls back to
`false` when the fetched record itself lacks the optional `proxied` field. -/
theorem updateRecord_merge_spec (zone id : String) (patch : DNSPatch)
    (fetchEnv : CFResponse DNSRecord) (h : fetchEnv.success = true) :
    (updateRecord zone id patch fetchEnv).1 = recordPath zone id ∧
    (updateRecord zone id patch fetchEnv).2 =
      some (recordPath zone id, updatePayload fetchEnv.result patch) ∧
    (let current := fetchEnv.result
     let p := updatePayload current patch
     (patch.type = none → p.type = current.type) ∧
     (∀ v, patch.type = some v → p.type = v) ∧
     (patch.name = none → p.name = current.name) ∧
     (∀ v, patch.name = some v → p.name = v) ∧
     (patch.content = none → p.content = current.content) ∧
     (∀ v, patch.content = some v → p.content = v) ∧
     (patch.ttl = none → p.ttl = current.ttl) ∧
     (∀ v, patch.ttl = some v → p.ttl = v) ∧
     (patch.proxied = none → p.proxied = current.proxied.getD false) ∧
     (∀ v, patch.proxied = some v → p.proxied = v)) := by
  refine ⟨rfl, by simp [updateRecord, cfRequest, h], ?_, ?_, ?_, ?_, ?_, ?_,
    ?_, ?_, ?_, ?_⟩
  · intro hp; simp [updatePayload, hp]
  · intro v hp; simp [updatePayload, hp]
  · intro hp; simp [updatePayload, hp]
  · intro v hp; simp [updatePayload, hp]
  · intro hp; simp [updatePayload, hp]
  · intro v hp; simp [updatePayload, hp]
  · intro hp; simp [updatePayload, hp]
  · intro v hp; simp [updatePayload, hp]
  · intro hp; simp [updatePayload, hp]
  · intro v hp; simp [updatePayload, hp]

/-- Claim C1 witness: the amended merge evaluated, through
`updateRecord_merge_spec`, on the spec example patch and a concrete fetched
record carrying all fields. -/
theorem updateRecord_merge_spec_witness :
    (updateRecord "zone1" "abc123"
      { DNSPatch.empty with content := some "8.8.8.8" }
      { success := true,
        result := { id := "abc123", type := .A, name := "test.domain.com",
                    content := "1.1.1.1", ttl := 300, proxied := some true },
        errors := [] }).2 =
      some (recordPath "zone1" "abc123",
        { type := .A, name := "test.domain.com", content := "8.8.8.8",
          ttl := 300, proxied := true }) :=
  (updateRecord_merge_spec "zone1" "abc123"
    { DNSPatch.empty with content := some "8.8.8.8" }
    { success := true,
      result := { id := "abc123", type := .A, name := "test.domain.com",
                  content := "1.1.1.1", ttl := 300, proxied := some true },
      errors := [] } rfl).2.1

/-- Claim C3: `filterByMonthsAgo` keeps exactly the rows whose `updatedAt`
timestamp is at least `now - months * 30 * 24 * 60 * 60 * 1000`,
`filterOlderThanMonths` keeps exactly the rows carrying an `updatedAt`
strictly below that limit, and over rows that carry an `updatedAt` the two
results are exact complements. -/
theorem dateWindow_filters_spec (now : Int) (months : Nat) (repos : List Repo)
    (r : Repo) :
    (r ∈ filterByMonthsAgo now repos months ↔
      r ∈ repos ∧ ∃ t, r.updatedAt = some t ∧ monthsLimit now months ≤ t) ∧
    (r ∈ filterOlderThanMonths now repos months ↔
      r ∈ repos ∧ ∃ t, r.updatedAt = some t ∧ t < monthsLimit now months) ∧
    (∀ t, r.updatedAt = some t → r ∈ repos →
      ((r ∈ filterByMonthsAgo now repos months ∧
        r ∉ filterOlderThanMonths now repos months) ∨
       (r ∉ filterByMonthsAgo now repos months ∧
        r ∈ filterOlderThanMonths now repos months))) := by
  refine ⟨?_, ?_, ?_⟩
  · simp only [filterByMonthsAgo, List.mem_filter]
    cases hu : r.updatedAt <;> simp [hu]
  · simp only [filterOlderThanMonths, List.mem_filter]
    cases hu : r.updatedAt <;> simp [hu]
  · intro t ht hmem
    have h1 : r ∈ filterByMonthsAgo now repos months ↔
        monthsLimit now months ≤ t := by
      simp [filterByMonthsAgo, List.mem_filter, hmem, ht]
    have h2 : r ∈ filterOlderThanMonths now repos months ↔
        t < monthsLimit now months := by
      simp [filterOlderThanMonths, List.mem_filter, hmem, ht]
    rw [h1, h2]
    omega

/-- Claim C3 witness: the complement part of `dateWindow_filters_spec`
evaluated on a concrete two-row list around a concrete limit. -/
theorem dateWindow_filters_spec_witness :
    ({ name := "new", visibility := none, updatedAt := some 2592000001 } ∈
        filterByMonthsAgo 5184000000 [⟨"new", none, some 2592000001⟩] 1 ∧
      { name := "new", visibility := none, updatedAt := some 2592000001 } ∉
        filterOlderThanMonths 5184000000 [⟨"new", none, some 2592000001⟩] 1) ∨
    ({ name := "new", visibility := none, updatedAt := some 2592000001 } ∉
        filterByMonthsAgo 5184000000 [⟨"new", none, some 2592000001⟩] 1 ∧
      { name := "new", visibility := none, updatedAt := some 2592000001 } ∈
        filterOlderThanMonths 5184000000 [⟨"new", none, some 2592000001⟩] 1) :=
  (dateWindow_filters_spec 5184000000 1 [⟨"new", none, some 2592000001⟩]
    ⟨"new", none, some 2592000001⟩).2.2 2592000001 rfl (by decide)

/-- Claim C4: `filterByVisibility`, called with one of the two admissible
visibility values, keeps exactly the rows whose visibility field compares
equal case-insensitively to the requested value (rows without the field are
dropped), and the result is a sublist of the unmodified input. -/
theorem filterByVisibility_spec (repos : List Repo) (visibility : String)
    (h : visibility = "public" ∨ visibility = "private") (r : Repo) :
    (r ∈ filterByVisibility repos visibility ↔
      r ∈ repos ∧ ∃ v, r.visibility = some v ∧ jsToLower v = jsToLower visibility) ∧
    List.Sublist (filterByVisibility repos visibility) repos := by
  constructor
  · simp only [filterByVisibility, List.mem_filter]
    cases hv : r.visibility with
    | none => simp [hv]
    | some v =>
      rcases h with h | h <;> subst h <;>
        simp [hv, show jsToLower "public" = "public" from by decide,
          show jsToLower "private" = "private" from by decide]
  · exact List.filter_sublist _

/-- Claim C4 witness: `filterByVisibility` evaluated, through
`filterByVisibility_spec`, on a concrete list with mixed-case visibility. -/
theorem filterByVisibility_spec_witness :
    { name := "a", visibility := some "Public", updatedAt := none } ∈
      filterByVisibility
        [⟨"a", some "Public", none⟩, ⟨"b", some "private", none⟩] "public" ↔
    { name := "a", visibility := some "Public", updatedAt := none } ∈
        [(⟨"a", some "Public", none⟩ : Repo), ⟨"b", some "private", none⟩] ∧
      ∃ v, (some "Public" : Option String) = some v ∧
        jsToLower v = jsToLower "public" :=
  (filterByVisibility_spec
    [⟨"a", some "Public", none⟩, ⟨"b", some "private", none⟩] "public"
    (Or.inl rfl) ⟨"a", some "Public", none⟩).1

theorem isInfix_appendL {α : Type} {l₁ l₃ : List α} (l₂ : List α)
    (h : List.IsInfix l₁ l₃) : List.IsInfix l₁ (l₂ ++ l₃) := by
  obtain ⟨s, t, rfl⟩ := h
  exact ⟨l₂ ++ s, t, by simp⟩

theorem isInfix_self_append {α : Type} (l r : List α) : List.IsInfix l (l ++ r) :=
  ⟨[], r, by simp⟩

/-- Claim C5: `sortByUpdated`, on lists whose rows all carry an `updatedAt`
(as every fetched repository descriptor does), returns a permutation of the
input whose timestamps are non-decreasing for ascending order and
non-increasing for descending order, and rows with equal timestamps keep
their relative input order. -/
theorem sortByUpdated_spec (repos : List Repo) (order : SortOrder)
    (h : ∀ r ∈ repos, r.updatedAt.isSome = true) :
    List.Perm (sortByUpdated repos order) repos ∧
    (order = .asc → (sortByUpdated repos order).Pairwise
      (fun a b => updatedTime a ≤ updatedTime b)) ∧
    (order = .desc → (sortByUpdated repos order).Pairwise
      (fun a b => updatedTime b ≤ updatedTime a)) ∧
    (∀ a b, updatedTime a = updatedTime b → List.Sublist [a, b] repos →
      List.Sublist [a, b] (sortByUpdated repos order)) := by
  have trans : ∀ a b c : Repo,
      decide (compareRepos order a b ≤ 0) = true →
      decide (compareRepos order b c ≤ 0) = true →
      decide (compareRepos order a c ≤ 0) = true := by
    intro a b c hab hbc
    cases order <;> simp only [compareRepos, decide_eq_true_eq] at * <;> omega
  have total : ∀ a b : Repo,
      (decide (compareRepos order a b ≤ 0) ||
        decide (compareRepos order b a ≤ 0)) = true := by
    intro a b
    cases order <;> simp only [compareRepos, Bool.or_eq_true,
      decide_eq_true_eq] <;> omega
  refine ⟨List.mergeSort_perm repos _, ?_, ?_, ?_⟩
  · rintro rfl
    have hs := @List.sorted_mergeSort Repo
      (fun a b => decide (compareRepos SortOrder.asc a b ≤ 0))
      (trans) (total) repos
    refine hs.imp ?_
    intro a b hab
    simp only [compareRepos, decide_eq_true_eq] at hab
    omega
  · rintro rfl
    have hs := @List.sorted_mergeSort Repo
      (fun a b => decide (compareRepos SortOrder.desc a b ≤ 0))
      (trans) (total) repos
    refine hs.imp ?_
    intro a b hab
    simp only [compareRepos, decide_eq_true_eq] at hab
    omega
  · intro a b hts hsub
    refine List.pair_sublist_mergeSort trans total ?_ hsub
    cases order <;> simp only [compareRepos, hts, decide_eq_true_eq] <;> omega

/-- Claim C5 witness: `sortByUpdated` evaluated, through `sortByUpdated_spec`,
on a concrete three-row list. -/
theorem sortByUpdated_spec_witness :
    List.Perm
      (sortByUpdated
        [⟨"a", none, some 30⟩, ⟨"b", none, some 10⟩, ⟨"c", none, some 20⟩]
        SortOrder.asc)
      [⟨"a", none, some 30⟩, ⟨"b", none, some 10⟩, ⟨"c", none, some 20⟩] ∧
    (sortByUpdated
        [⟨"a", none, some 30⟩, ⟨"b", none, some 10⟩, ⟨"c", none, some 20⟩]
        SortOrder.asc).Pairwise (fun a b => updatedTime a ≤ updatedTime b) :=
  ⟨(sortByUpdated_spec
      [⟨"a", none, some 30⟩, ⟨"b", none, some 10⟩, ⟨"c", none, some 20⟩]
      SortOrder.asc (by decide)).1,
   (sortByUpdated_spec
      [⟨"a", none, some 30⟩, ⟨"b", none, some 10⟩, ⟨"c", none, some 20⟩]
      SortOrder.asc (by decide)).2.1 rfl⟩

/-- Claim C8: when the computed target directory already exists, both
scaffolder variants leave the filesystem exactly as it was, print a failure
message and exit with status `1`.  (When the name or port argument is empty
the usage error exits with status `1` before any write as well, so the
conclusion needs no validity hypothesis.) -/
theorem scaffold_existing_dir_spec (home name port : String) (fs : FS)
    (hg : existsSync fs (baseDir home "gowaApp" name) = true)
    (hn : existsSync fs (baseDir home "n8nApp" name) = true) :
    (∃ msg, gowaMain home (some name) (some port) fs =
      (fs, .exited 1 msg)) ∧
    (∃ msg, n8nMain home (some name) (some port) fs =
      (fs, .exited 1 msg)) := by
  constructor
  · cases hb : truthy (some name) && truthy (some port)
    · exact ⟨"Usage:\nbun src/gowaApp.ts --name 1gowaApp --port 3002",
        by simp [gowaMain, hb]⟩
    · exact ⟨"❌ Folder already exists: " ++ baseDir home "gowaApp" name,
        by simp [gowaMain, hb, hg]⟩
  · cases hb : truthy (some name) && truthy (some port)
    · exact ⟨"Usage:\nbun src/n8nApp.ts --name 2n8nApp --port 5679",
        by simp [n8nMain, hb]⟩
    · exact ⟨"❌ Folder already exists: " ++ baseDir home "n8nApp" name,
        by simp [n8nMain, hb, hn]⟩

/-- Claim C8 witness: both scaffolders evaluated, through
`scaffold_existing_dir_spec`, on a concrete filesystem already holding both
target directories. -/
theorem scaffold_existing_dir_spec_witness :
    (∃ msg, gowaMain "/root" (some "app1") (some "3002")
      { dirs := [baseDir "/root" "gowaApp" "app1",
                 baseDir "/root" "n8nApp" "app1"], files := [] } =
      ({ dirs := [baseDir "/root" "gowaApp" "app1",
                  baseDir "/root" "n8nApp" "app1"], files := [] },
       .exited 1 msg)) ∧
    (∃ msg, n8nMain "/root" (some "app1") (some "3002")
      { dirs := [baseDir "/root" "gowaApp" "app1",
                 baseDir "/root" "n8nApp" "app1"], files := [] } =
      ({ dirs := [baseDir "/root" "gowaApp" "app1",
                  baseDir "/root" "n8nApp" "app1"], files := [] },
       .exited 1 msg)) :=
  scaffold_existing_dir_spec "/root" "app1" "3002"
    { dirs := [baseDir "/root" "gowaApp" "app1",
               baseDir "/root" "n8nApp" "app1"], files := [] }
    (by decide) (by decide)

/-- Claim C9: on a non-empty name/port pair whose target directory is absent,
the gowa scaffolder creates that directory and writes exactly one file,
`compose.yaml`, and the n8n scaffolder creates its directory and writes
exactly `.env` and `compose.yaml`; the written contents contain the literal
name and port substituted into the fixed templates, and the previously
absent directory exists afterwards. -/
theorem scaffold_fresh_dir_spec (home name port : String) (fs : FS)
    (hname : name ≠ "") (hport : port ≠ "")
    (hg : existsSync fs (baseDir home "gowaApp" name) = false)
    (hn : existsSync fs (baseDir home "n8nApp" name) = false) :
    gowaMain home (some name) (some port) fs =
      ({ dirs := baseDir home "gowaApp" name :: fs.dirs
         files := (pathJoin (baseDir home "gowaApp" name) "compose.yaml",
                   gowaComposeContent name port) :: fs.files }, .created) ∧
    existsSync (gowaMain home (some name) (some port) fs).1
      (baseDir home "gowaApp" name) = true ∧
    List.IsInfix name.data (gowaComposeContent name port).data ∧
    List.IsInfix port.data (gowaComposeContent name port).data ∧
    n8nMain home (some name) (some port) fs =
      ({ dirs := baseDir home "n8nApp" name :: fs.dirs
         files := (pathJoin (baseDir home "n8nApp" name) "compose.yaml",
                   n8nComposeContent name) ::
                  (pathJoin (baseDir home "n8nApp" name) ".env",
                   n8nEnvContent port) :: fs.files }, .created) ∧
    existsSync (n8nMain home (some name) (some port) fs).1
      (baseDir home "n8nApp" name) = true ∧
    List.IsInfix name.data (n8nComposeContent name).data ∧
    List.IsInfix port.data (n8nEnvContent port).data := by
  have htr : (truthy (some name) && truthy (some port)) = true := by
    simp [truthy, hname, hport]
  have hgm : baseDir home "gowaApp" name ∉ fs.dirs := by
    simpa [existsSync] using hg
  have hnm : baseDir home "n8nApp" name ∉ fs.dirs := by
    simpa [existsSync] using hn
  refine ⟨?_, ?_, ?_, ?_, ?_, ?_, ?_, ?_⟩
  · simp [gowaMain, htr, hg]
  · simp [gowaMain, htr, existsSync, hgm]
  · unfold gowaComposeContent
    simp only [String.data_append, List.append_assoc]
    exact isInfix_appendL _ (isInfix_self_append _ _)
  · unfold gowaComposeContent
    simp only [String.data_append, List.append_assoc]
    exact isInfix_appendL _ (isInfix_appendL _ (isInfix_appendL _
      (isInfix_appendL _ (isInfix_appendL _ (isInfix_self_append _ _)))))
  · simp [n8nMain, htr, hn]
  · simp [n8nMain, htr, existsSync, hnm]
  · unfold n8nComposeContent
    simp only [String.data_append, List.append_assoc]
    exact isInfix_appendL _ (isInfix_self_append _ _)
  · unfold n8nEnvContent
    simp only [String.data_append, List.append_assoc]
    exact isInfix_appendL _ (isInfix_self_append _ _)

/-- Claim C9 witness: both scaffolders evaluated, through
`scaffold_fresh_dir_spec`, on an empty concrete filesystem. -/
theorem scaffold_fresh_dir_spec_witness :
    gowaMain "/root" (some "app1") (some "3002") { dirs := [], files := [] } =
      ({ dirs := [baseDir "/root" "gowaApp" "app1"]
         files := [(pathJoin (baseDir "/root" "gowaApp" "app1") "compose.yaml",
                    gowaComposeContent "app1" "3002")] }, .created) ∧
    n8nMain "/root" (some "app1") (some "3002") { dirs := [], files := [] } =
      ({ dirs := [baseDir "/root" "n8nApp" "app1"]
         files := [(pathJoin (baseDir "/root" "n8nApp" "app1") "compose.yaml",
                    n8nComposeContent "app1"),
                   (pathJoin (baseDir "/root" "n8nApp" "app1") ".env",
                    n8nEnvContent "3002")] }, .created) :=
  ⟨(scaffold_fresh_dir_spec "/root" "app1" "3002" ⟨[], []⟩
      (by decide) (by decide) (by decide) (by decide)).1,
   (scaffold_fresh_dir_spec "/root" "app1" "3002" ⟨[], []⟩
      (by decide) (by decide) (by decide) (by decide)).2.2.2.2.1⟩

end DockerApp
